import Mathlib

/-!
Shallow embedding of the s5cmd client-copy / sync core (package `command`):
the sync decision strategies, the retry controller, the disk-space guard,
the bandwidth limiter and the sync planner's max-delete enforcement.
Each definition is translated from the corresponding Go source; external
collaborators (filesystem, `golang.org/x/time/rate`, the S3 SDK) are
abstracted as explicit oracle parameters.
-/

namespace S5cmd

/-- ASCII lowering of one character; Go `strings.ToLower` restricted to the
ASCII range, which is all the retry patterns use. -/
def charToLower (c : Char) : Char :=
  if 65 ≤ c.toNat ∧ c.toNat ≤ 90 then Char.ofNat (c.toNat + 32) else c

/-- ASCII raising of one character; Go `strings.ToUpper` restricted to the
ASCII range, which is all the bandwidth units use. -/
def charToUpper (c : Char) : Char :=
  if 97 ≤ c.toNat ∧ c.toNat ≤ 122 then Char.ofNat (c.toNat - 32) else c

/-- Go `strings.ToLower` (ASCII fragment). -/
def strToLower (s : String) : String :=
  ⟨s.data.map charToLower⟩

/-- Go `strings.ToUpper` (ASCII fragment). -/
def strToUpper (s : String) : String :=
  ⟨s.data.map charToUpper⟩

/-- The ASCII whitespace characters `unicode.IsSpace` recognises. -/
def isSpaceChar (c : Char) : Bool :=
  c == ' ' || c == '\t' || c == '\n' || c == '\r' ||
    c == Char.ofNat 11 || c == Char.ofNat 12

/-- Go `strings.TrimSpace` (ASCII fragment): drop whitespace from both ends. -/
def strTrim (s : String) : String :=
  ⟨((s.data.dropWhile isSpaceChar).reverse.dropWhile isSpaceChar).reverse⟩

/-- Whether the first character list is a prefix of the second
(helper for the substring test below). -/
def charListHasPre : List Char → List Char → Bool
  | [], _ => true
  | _ :: _, [] => false
  | a :: as, b :: bs => a == b && charListHasPre as bs

/-- Whether `pat` occurs as a contiguous run inside the character list. -/
def charListContains (pat : List Char) : List Char → Bool
  | [] => charListHasPre pat []
  | c :: rest => charListHasPre pat (c :: rest) || charListContains pat rest

/-- Go `strings.Contains s pat`: whether `pat` is a substring of `s`. -/
def strContains (s pat : String) : Bool :=
  charListContains pat.data s.data

/-- Go `strings.HasSuffix s post`: whether `s` ends with `post`. -/
def strEndsWith (s post : String) : Bool :=
  charListHasPre post.data.reverse s.data.reverse

/-- `storage.Object`: a logical item in source or destination.  `ModTime`
(a `*time.Time` in Go) is modelled as an integer timestamp so that
`srcMod.After(*dstMod)` becomes `src.modTime > dst.modTime`; the URL is
modelled by its string form plus the `IsRemote()` predicate, which is the
only part of the URL collaborator the strategies consume. -/
structure Object where
  urlPath : String
  isRemoteURL : Bool
  size : Int
  modTime : Int
  etag : String
deriving DecidableEq

/-- The sentinel skip reasons of package `error` that the strategies return
(`ErrObjectSizesMatch`, `ErrObjectIsNewerAndSizesMatch`, `ErrObjectEtagsMatch`).
`ShouldSync` returning Go `nil` is modelled as `none` (copy is needed). -/
inductive SyncError where
  | objectSizesMatch
  | objectIsNewerAndSizesMatch
  | objectEtagsMatch
deriving DecidableEq

/-- `SizeOnlyStrategy.ShouldSync`: skip iff the sizes are equal. -/
def sizeOnlyShouldSync (srcObj dstObj : Object) : Option SyncError :=
  if srcObj.size = dstObj.size then some SyncError.objectSizesMatch
  else none

/-- `SizeAndModificationStrategy.ShouldSync`: copy when the source is
strictly newer, copy when sizes differ, otherwise skip. -/
def sizeAndModificationShouldSync (srcObj dstObj : Object) : Option SyncError :=
  if srcObj.modTime > dstObj.modTime then none
  else if srcObj.size ≠ dstObj.size then none
  else some SyncError.objectIsNewerAndSizesMatch

/-- `isMultipartETag`: an ETag from a multipart upload contains a dash. -/
def isMultipartETag (etag : String) : Bool :=
  strContains etag "-"

/-- `getHash`: remote objects (or local ones with a stored ETag) yield their
ETag; otherwise the file is opened and MD5-hashed in 32 KiB chunks.  The
filesystem + `crypto/md5` collaborator is abstracted as the oracle `env`:
`some h` is the hex digest of a successful open-and-hash, `none` an open or
read failure, which the source maps to the empty string. -/
def getHash (env : Object → Option String) (obj : Object) : String :=
  if obj.isRemoteURL ∨ obj.etag ≠ "" then obj.etag
  else
    match env obj with
    | none => ""
    | some h => h

/-- `HashStrategy.ShouldSync`: copy when sizes differ; otherwise compare the
two hash tokens, copying unconditionally when either is multipart, skipping
with `ErrObjectEtagsMatch` when they are equal. -/
def hashShouldSync (env : Object → Option String) (srcObj dstObj : Object) :
    Option SyncError :=
  if srcObj.size ≠ dstObj.size then none
  else
    let srcHash := getHash env srcObj
    let dstHash := getHash env dstObj
    if isMultipartETag srcHash || isMultipartETag dstHash then none
    else if srcHash = dstHash then some SyncError.objectEtagsMatch
    else none

/-- The generic transport substrings of `IsRetryableError`. -/
def retryablePatterns : List String :=
  ["connection", "timeout", "temporary failure", "service unavailable",
   "internal error", "slow down", "throttling", "rate limit",
   "too many requests", "request timeout", "dial tcp", "connection reset",
   "connection refused", "no such host", "i/o timeout",
   "context deadline exceeded", "eof", "unexpected eof"]

/-- The AWS-specific retryable substrings of `IsRetryableError`. -/
def awsRetryablePatterns : List String :=
  ["provisionedthroughputexceeded", "throttlingexception",
   "requestlimitexceeded", "serviceunavailable", "internalerror",
   "slowdown", "requesttimeout"]

/-- `IsRetryableError`: `nil` is not retryable; otherwise the lowercased
message is matched against the two closed substring lists.  Go errors are
modelled by their message string, `nil` by `none`. -/
def isRetryableError : Option String → Bool
  | none => false
  | some msg =>
    let errStr := strToLower msg
    retryablePatterns.any (fun p => strContains errStr p) ||
      awsRetryablePatterns.any (fun p => strContains errStr p)

/-- The value `WithRetry` returns: Go `nil` success, a non-retryable error
returned as-is, the context's cancellation error, or the wrapping error
`"operation failed after N retries: <last>"` (modelled by its attempt count
`n` and the wrapped message). -/
inductive RetryResult where
  | ok
  | errAsIs (e : String)
  | cancelled
  | exhausted (n : Nat) (e : String)
deriving DecidableEq

/-- The body of `WithRetry`'s `for` loop.  The operation is modelled as
`op : attempt ↦ none (success) | some msg`, the context as `cancel :
attempt ↦ whether ctx.Done fires during the backoff wait after that
attempt.  The loop counter starts at 0 and runs while
`attempt ≤ maxRetries`; `left` is the number of retries still allowed,
maintained as `maxRetries - attempt`, so Go's last-attempt break
`attempt == config.MaxRetries` is the `left = 0` case here.  On failure Go
first breaks on the last attempt, only then tests retryability, then waits
racing the context before the next attempt. -/
def withRetryAux (op : Nat → Option String) (cancel : Nat → Bool)
    (maxRetries : Nat) : Nat → Nat → RetryResult
  | attempt, left =>
    match op attempt with
    | none => RetryResult.ok
    | some e =>
      match left with
      | 0 => RetryResult.exhausted (maxRetries + 1) e
      | left' + 1 =>
        if isRetryableError (some e) = false then RetryResult.errAsIs e
        else if cancel attempt then RetryResult.cancelled
        else withRetryAux op cancel maxRetries (attempt + 1) left'

/-- `WithRetry`: run the retry loop from attempt 0 with all
`maxRetries` retries available. -/
def withRetry (op : Nat → Option String) (cancel : Nat → Bool)
    (maxRetries : Nat) : RetryResult :=
  withRetryAux op cancel maxRetries 0 maxRetries

/-- Go's `int64(x)` conversion of a floating value truncates toward zero.
The float computations themselves are modelled exactly over `ℚ`. -/
def goInt64OfRat (q : ℚ) : Int :=
  if 0 ≤ q then ⌊q⌋ else ⌈q⌉

/-- `RetryConfig` of `retry_logic.go`; delays (Go `time.Duration`, an int64
nanosecond count fed through float64 arithmetic) are modelled over `ℚ`. -/
structure RetryConfig where
  maxRetries : Nat
  baseDelay : ℚ
  maxDelay : ℚ
  backoffExponent : ℚ
  jitter : Bool

/-- The nominal exponential backoff `base · exponent ^ attempt`. -/
def nominalDelay (rc : RetryConfig) (i : Nat) : ℚ :=
  rc.baseDelay * rc.backoffExponent ^ i

/-- The jitter statement of `CalculateDelay`: when enabled and the delay is
positive, add `(r - 0.5) · 2 · (delay · 0.25)` where `r` is the
`rand.Float64()` draw in `[0,1)`. -/
def jitterStep (rc : RetryConfig) (r delay : ℚ) : ℚ :=
  if rc.jitter ∧ 0 < delay then delay + (r - 1/2) * 2 * (delay * (1/4))
  else delay

/-- The negative-snap statement of `CalculateDelay`: a negative delay
becomes `base`. -/
def snapNegative (rc : RetryConfig) (delay : ℚ) : ℚ :=
  if delay < 0 then rc.baseDelay else delay

/-- The clamp statement of `CalculateDelay`: a delay above `max` becomes
`max`. -/
def clampMax (rc : RetryConfig) (delay : ℚ) : ℚ :=
  if rc.maxDelay < delay then rc.maxDelay else delay

/-- `RetryConfig.CalculateDelay` before the final `time.Duration`
conversion: negative attempts yield 0; otherwise exponential backoff, the
jitter statement, the negative snap, and the clamp, in source order. -/
def calculateDelayPre (rc : RetryConfig) (attempt : Int) (r : ℚ) : ℚ :=
  if attempt < 0 then 0
  else
    clampMax rc (snapNegative rc
      (jitterStep rc r (rc.baseDelay * rc.backoffExponent ^ attempt.toNat)))

/-- `RetryConfig.CalculateDelay`: the clamped delay truncated to an integer
nanosecond count by the `time.Duration(delay)` conversion. -/
def calculateDelay (rc : RetryConfig) (attempt : Int) (r : ℚ) : Int :=
  goInt64OfRat (calculateDelayPre rc attempt r)

/-- `DefaultClientCopyRetryConfig`, with durations in nanoseconds. -/
def defaultClientCopyRetryConfig : RetryConfig :=
  { maxRetries := 3
    baseDelay := 1000000000
    maxDelay := 30000000000
    backoffExponent := 2
    jitter := true }

/-- The structured insufficient-space error of `validateDiskSpace`
(`"insufficient disk space: need %d bytes, have %d bytes available"`). -/
inductive DiskError where
  | insufficientSpace (needBytes haveBytes : Int)
deriving DecidableEq

/-- The required byte count of `validateDiskSpace`:
`int64(float64(size) * 1.2)`.  Over `ℚ` the product is exact; for every
size below `2^50` the float64 product has the same truncation (float64
`1.2` is `1.2·(1 - δ)` with `δ < 2^-52`, so the product sits within
half an ulp of the exact value, whose distance to the nearest integer
other than itself is at least `1/5`). -/
def requiredSpace (size : Int) : Int :=
  goInt64OfRat ((size : ℚ) * (6/5))

/-- Spec-worded variant for comparison: the spec states the required count
as the ceiling `⌈size × 1.2⌉`. -/
def requiredSpaceSpec (size : Int) : Int :=
  ⌈(size : ℚ) * (6/5)⌉

/-- The decision core of `validateDiskSpace` once the source size and the
free byte count have been obtained: fail iff `free < required`. -/
def validateDiskSpaceCheck (size free : Int) : Option DiskError :=
  if free < requiredSpace size then
    some (DiskError.insufficientSpace (requiredSpace size) free)
  else none

/-- `runtime.GOOS` values distinguished by `getAvailableDiskSpace`. -/
inductive GOOS where
  | windows | darwin | linux | freebsd | openbsd | netbsd | other
deriving DecidableEq

/-- The platform facilities `getAvailableDiskSpace` could consult, as an
oracle: what a Unix `statfs` call would report for the directory (available
on the Unix platforms but unused by the source), what
`GetDiskFreeSpaceExW` reports (`lpFreeBytesAvailable`), and whether
creating a temporary probe file under the directory succeeds. -/
structure DiskEnv where
  statfsFreeBytes : Option Int
  windowsFreeBytesAvailable : Option Int
  probeCanWrite : Bool

/-- `getFallbackDiskSpace`: probe writability by creating a temp file, then
return the hard-coded conservative estimate of 1 GiB. -/
def getFallbackDiskSpace (env : DiskEnv) : Except String Int :=
  if env.probeCanWrite then Except.ok (1024 * 1024 * 1024)
  else Except.error "cannot write to disk"

/-- `getWindowsDiskSpace`: on Windows, query `GetDiskFreeSpaceExW` and
return the free bytes available to the caller. -/
def getWindowsDiskSpace (os : GOOS) (env : DiskEnv) : Except String Int :=
  if os ≠ GOOS.windows then
    Except.error "Windows disk space check not supported"
  else
    match env.windowsFreeBytesAvailable with
    | some b => Except.ok b
    | none => Except.error "GetDiskFreeSpaceEx failed"

/-- `getUnixDiskSpace`: the source comments it as using the Unix `statfs`
syscall but its body only calls `getFallbackDiskSpace`; the statfs value in
the environment is never consulted. -/
def getUnixDiskSpace (env : DiskEnv) : Except String Int :=
  getFallbackDiskSpace env

/-- `getAvailableDiskSpace`: dispatch on `runtime.GOOS` (the
walk-up-to-an-existing-ancestor step only chooses the queried path and is
not modelled). -/
def getAvailableDiskSpace (os : GOOS) (env : DiskEnv) : Except String Int :=
  match os with
  | GOOS.windows => getWindowsDiskSpace os env
  | GOOS.darwin => getUnixDiskSpace env
  | GOOS.linux => getUnixDiskSpace env
  | GOOS.freebsd => getUnixDiskSpace env
  | GOOS.openbsd => getUnixDiskSpace env
  | GOOS.netbsd => getUnixDiskSpace env
  | GOOS.other => getFallbackDiskSpace env

/-- Digits to a natural number, `ds` most significant first. -/
def digitsToNat (ds : List Char) : Nat :=
  ds.foldl (fun a c => a * 10 + (c.toNat - 48)) 0

/-- The token content of a plain decimal float literal: sign, integer
part, fractional digits (value and count), exponent sign and value. -/
structure ParsedFloat where
  sgnNeg : Bool
  intPart : Nat
  fracPart : Nat
  fracLen : Nat
  expNeg : Bool
  expVal : Nat
deriving DecidableEq

/-- The syntactic part of `strconv.ParseFloat` on the plain decimal forms
the bandwidth grammar can produce: optional sign, an integer part and/or a
fractional part (at least one digit overall, a trailing dot is allowed),
an optional exponent with a mandatory digit.  No whitespace or other
characters are accepted anywhere.  Special forms (Inf, NaN, hex mantissas,
digit-separating underscores) are outside the modelled fragment. -/
def goParseFloatRaw (s : String) : Option ParsedFloat :=
  let cs := s.data
  let neg := cs.head? == some '-'
  let cs1 := if cs.head? == some '-' || cs.head? == some '+' then cs.tail else cs
  let ip := cs1.takeWhile Char.isDigit
  let rest1 := cs1.dropWhile Char.isDigit
  let hasDot := rest1.head? == some '.'
  let fp := if hasDot then rest1.tail.takeWhile Char.isDigit else []
  let rest2 := if hasDot then rest1.tail.dropWhile Char.isDigit else rest1
  if ip.isEmpty && fp.isEmpty then none
  else if rest2.isEmpty then
    some ⟨neg, digitsToNat ip, digitsToNat fp, fp.length, false, 0⟩
  else if rest2.head? == some 'e' || rest2.head? == some 'E' then
    let er := rest2.tail
    let expNeg := er.head? == some '-'
    let er1 := if er.head? == some '-' || er.head? == some '+' then er.tail else er
    let ed := er1.takeWhile Char.isDigit
    let erest := er1.dropWhile Char.isDigit
    if ed.isEmpty || !erest.isEmpty then none
    else some ⟨neg, digitsToNat ip, digitsToNat fp, fp.length, expNeg, digitsToNat ed⟩
  else none

/-- The exact rational value of a parsed decimal literal (float64 rounding
of the numeral is not modelled). -/
def ParsedFloat.value (p : ParsedFloat) : ℚ :=
  let mag : ℚ := (p.intPart : ℚ) + (p.fracPart : ℚ) / ((10 : ℚ) ^ p.fracLen)
  let scaled : ℚ :=
    if p.expNeg then mag / ((10 : ℚ) ^ p.expVal) else mag * ((10 : ℚ) ^ p.expVal)
  if p.sgnNeg then -scaled else scaled

/-- `strconv.ParseFloat` (modelled fragment): tokenize, then evaluate. -/
def goParseFloat (s : String) : Option ℚ :=
  (goParseFloatRaw s).map ParsedFloat.value

/-- The failure cases of `parseBandwidthLimit`. -/
inductive BandwidthParseError where
  | unsupportedFormat
  | missingUnit
  | invalidNumber
  | nonPositive
deriving DecidableEq

/-- The unit-suffix dispatch of `parseBandwidthLimit` on the normalised
string: `bps` forms are bits/sec (binary prefix divided by 8), `B/S` forms
bytes/sec.  The result is the bytes-per-second multiplier (every quotient
here is exact).  All recognised suffixes have length 4, which is what each
branch trims before parsing the number. -/
def resolveBandwidthUnit (t : String) : Except BandwidthParseError Nat :=
  if strEndsWith t "BPS" then
    if strEndsWith t "GBPS" then Except.ok (1024 * 1024 * 1024 / 8)
    else if strEndsWith t "MBPS" then Except.ok (1024 * 1024 / 8)
    else if strEndsWith t "KBPS" then Except.ok (1024 / 8)
    else Except.error BandwidthParseError.unsupportedFormat
  else if strEndsWith t "B/S" then
    if strEndsWith t "GB/S" then Except.ok (1024 * 1024 * 1024)
    else if strEndsWith t "MB/S" then Except.ok (1024 * 1024)
    else if strEndsWith t "KB/S" then Except.ok 1024
    else Except.error BandwidthParseError.unsupportedFormat
  else Except.error BandwidthParseError.missingUnit

/-- `parseBandwidthLimit`: trim and upper-case, dispatch on the unit
suffix, strip it, parse the remaining prefix with `strconv.ParseFloat`,
reject non-positive numbers, and scale to bytes/sec. -/
def parseBandwidthLimit (limitStr : String) : Except BandwidthParseError ℚ :=
  let t := strToUpper (strTrim limitStr)
  match resolveBandwidthUnit t with
  | Except.error e => Except.error e
  | Except.ok mult =>
    match goParseFloatRaw (t.dropRight 4) with
    | none => Except.error BandwidthParseError.invalidNumber
    | some p =>
      if p.value ≤ 0 then Except.error BandwidthParseError.nonPositive
      else Except.ok (p.value * (mult : ℚ))

/-- The validator's format pattern
`^(\d+(?:\.\d+)?)\s*(KB/S|MB/S|GB/S|KBPS|MBPS|GBPS)$`, applied to the
normalised (trimmed, upper-cased) string: digits, an optional fraction,
optional whitespace, then one of the six units, consuming the whole
string. -/
def bandwidthFormatMatch (s : String) : Bool :=
  let cs := s.data
  let ds := cs.takeWhile Char.isDigit
  let rest1 := cs.dropWhile Char.isDigit
  if ds.isEmpty then false
  else
    let rest2 : Option (List Char) :=
      match rest1 with
      | '.' :: more =>
        let fs := more.takeWhile Char.isDigit
        if fs.isEmpty then none else some (more.dropWhile Char.isDigit)
      | _ => some rest1
    match rest2 with
    | none => false
    | some r2 =>
      let r3 := r2.dropWhile isSpaceChar
      ["KB/S", "MB/S", "GB/S", "KBPS", "MBPS", "GBPS"].any
        (fun u => r3 = u.data)

/-- `ValidateBandwidthFormat`: accept the empty string; otherwise demand a
regex match on the normalised string, a successful parse of the original
string, and a value inside `[1 KiB/s, 100 GiB/s]`.  `some msg` is the
returned validation error. -/
def validateBandwidthFormat (limitStr : String) : Option String :=
  if limitStr = "" then none
  else
    let normalized := strToUpper (strTrim limitStr)
    if ¬ bandwidthFormatMatch normalized then some "invalid bandwidth format"
    else
      match parseBandwidthLimit limitStr with
      | Except.error _ => some "failed to parse bandwidth limit"
      | Except.ok bytesPerSecond =>
        if bytesPerSecond < 1024 then
          some "bandwidth limit too low: minimum 1KB/s"
        else if bytesPerSecond > 100 * 1024 * 1024 * 1024 then
          some "bandwidth limit too high: maximum 100GB/s"
        else none

/-- `BandwidthLimiter`: the enabled flag plus the parameters handed to
`rate.NewLimiter` (zero-valued when disabled, where Go keeps a nil
pointer). -/
structure BandwidthLimiter where
  enabled : Bool
  rate : ℚ
  burst : Int
deriving DecidableEq

/-- `NewBandwidthLimiter`: the empty string yields a disabled limiter and
no error; otherwise parse, then set burst to 10% of the rate (truncated)
with a 64 KiB floor. -/
def newBandwidthLimiter (limitStr : String) :
    Except BandwidthParseError BandwidthLimiter :=
  if limitStr = "" then Except.ok ⟨false, 0, 0⟩
  else
    match parseBandwidthLimit limitStr with
    | Except.error e => Except.error e
    | Except.ok bytesPerSecond =>
      let burstSize := goInt64OfRat (bytesPerSecond / 10)
      let burstSize := if burstSize < 64 * 1024 then (64 * 1024 : Int) else burstSize
      Except.ok ⟨true, bytesPerSecond, burstSize⟩

/-- A Go context, as the limiter wrappers see it. -/
structure Ctx where
  cancelled : Bool

/-- The behaviour of the external `rate.Limiter.WaitN`, abstracted as an
oracle from the limiter parameters, the context, and the byte count to an
optional error (cancellation or a burst-exceeded failure). -/
def WaitOracle : Type :=
  ℚ → Int → Ctx → Nat → Option String

/-- `BandwidthLimiter.Wait`: a disabled limiter returns nil without
consulting anything; an enabled one defers to `rate.Limiter.WaitN`. -/
def bandwidthWait (waitN : WaitOracle) (bl : BandwidthLimiter) (ctx : Ctx)
    (n : Nat) : Option String :=
  if ¬ bl.enabled then none
  else waitN bl.rate bl.burst ctx n

/-- `LimitedReader.Read`: call the underlying read first (modelled by its
result: count and error), then — only when bytes arrived and the limiter is
enabled — reserve them, surfacing a wait failure with the partial count. -/
def limitedRead (waitN : WaitOracle) (bl : BandwidthLimiter) (ctx : Ctx)
    (underlying : Nat × Option String) : Nat × Option String :=
  if underlying.1 > 0 ∧ bl.enabled then
    match bandwidthWait waitN bl ctx underlying.1 with
    | some waitErr => (underlying.1, some waitErr)
    | none => underlying
  else underlying

/-- `LimitedWriter.Write`: when the limiter is enabled, reserve `len p`
first, returning `(0, err)` on a wait failure; then call the underlying
write (modelled as a function of the byte count). -/
def limitedWrite (waitN : WaitOracle) (bl : BandwidthLimiter) (ctx : Ctx)
    (p : Nat) (underlying : Nat → Nat × Option String) : Nat × Option String :=
  if bl.enabled then
    match bandwidthWait waitN bl ctx p with
    | some waitErr => (0, some waitErr)
    | none => underlying p
  else underlying p

/-- A concrete sync plan action. -/
inductive PlanItem where
  | copy (src dst : String)
  | delete (url : String)
deriving DecidableEq

/-- The planner's refusal message,
`"refusing to delete %d files; more than max-delete limit of %d"`. -/
def maxDeleteErrMsg (n : Nat) (m : Int) : String :=
  "refusing to delete " ++ toString n ++
    " files; more than max-delete limit of " ++ toString m

/-- The decision predicate exercised by `TestMaxDeleteLogic` (the logic
`planRun` uses for destination-only entries): deletions proceed when there
are none, when the limit is negative (unlimited), or when the count is
within the limit. -/
def shouldDeleteTest (maxDelete filesToDelete : Int) : Bool :=
  decide (filesToDelete = 0) ||
    (decide (maxDelete < 0) || decide (filesToDelete ≤ maxDelete))

/-- Modelled from the spec: the destination-only phase of the sync planner
(`planRun`), whose body is not part of the provided sources (only its
flag definition and `TestMaxDeleteLogic` are).  Per the spec: with `delete`
false the entries are dropped; with `delete` true the buffered entries are
counted, and if `maxDelete ≥ 0 ∧ count > maxDelete` nothing is emitted and
the single refusal error is surfaced, otherwise one `Delete` per entry is
emitted. -/
def syncDeletePhase (delete : Bool) (maxDelete : Int)
    (destOnly : List String) : List PlanItem × Option String :=
  if ¬ delete then ([], none)
  else if 0 ≤ maxDelete ∧ (destOnly.length : Int) > maxDelete then
    ([], some (maxDeleteErrMsg destOnly.length maxDelete))
  else (destOnly.map PlanItem.delete, none)

theorem goInt64OfRat_of_nonneg {q : ℚ} (h : 0 ≤ q) : goInt64OfRat q = ⌊q⌋ := by
  simp [goInt64OfRat, h]

example : strContains "abc-5" "-" = true := by decide
example : isMultipartETag "" = false := by decide
example : hashShouldSync (fun _ => none) ⟨"/a", false, 5, 0, ""⟩ ⟨"/b", false, 5, 0, ""⟩ =
    some SyncError.objectEtagsMatch := by decide

example : isRetryableError (some "connection timeout") = true := by decide
example : isRetryableError (some "file not found") = false := by decide
example : isRetryableError (some "CONNECTION TIMEOUT") = true := by decide
example : isRetryableError none = false := by decide

example : withRetry (fun _ => some "file not found") (fun _ => false) 3 =
    RetryResult.errAsIs "file not found" := by decide
example : withRetry (fun n => if n < 2 then some "connection timeout" else none)
    (fun _ => false) 3 = RetryResult.ok := by decide
example : withRetry (fun _ => some "connection timeout") (fun _ => false) 2 =
    RetryResult.exhausted 3 "connection timeout" := by decide

example : requiredSpace 100 = 120 := by norm_num [requiredSpace, goInt64OfRat]
example : requiredSpace 1 = 1 := by norm_num [requiredSpace, goInt64OfRat]
example : requiredSpaceSpec 1 = 2 := by
  rw [requiredSpaceSpec, Int.ceil_eq_iff] <;> norm_num

example : goParseFloatRaw "100" = some ⟨false, 100, 0, 0, false, 0⟩ := by decide
example : goParseFloatRaw "100 " = none := by decide
example : goParseFloatRaw "1.5" = some ⟨false, 1, 5, 1, false, 0⟩ := by decide
example : goParseFloatRaw "-100" = some ⟨true, 100, 0, 0, false, 0⟩ := by decide
example : goParseFloatRaw "" = none := by decide
example : goParseFloatRaw "abc" = none := by decide
example : goParseFloatRaw "0" = some ⟨false, 0, 0, 0, false, 0⟩ := by decide

example : parseBandwidthLimit "100MB/s" = Except.ok ((100 : ℚ) * 1048576) := by
  have ht : strToUpper (strTrim "100MB/s") = "100MB/S" := by decide
  have hu : resolveBandwidthUnit "100MB/S" = Except.ok 1048576 := by rfl
  have hp : goParseFloatRaw ("100MB/S".dropRight 4) = some ⟨false, 100, 0, 0, false, 0⟩ := by
    decide
  rw [parseBandwidthLimit]
  rw [ht, hu, hp]
  norm_num [ParsedFloat.value]

example : parseBandwidthLimit "100 MB/s" = Except.error BandwidthParseError.invalidNumber := by
  have ht : strToUpper (strTrim "100 MB/s") = "100 MB/S" := by decide
  have hu : resolveBandwidthUnit "100 MB/S" = Except.ok 1048576 := by rfl
  have hp : goParseFloatRaw ("100 MB/S".dropRight 4) = none := by decide
  rw [parseBandwidthLimit]
  rw [ht, hu, hp]

example : syncDeletePhase true 3 ["a", "b", "c", "d", "e"] =
    ([], some "refusing to delete 5 files; more than max-delete limit of 3") := by
  decide

example : syncDeletePhase true (-1) ["a", "b"] =
    ([PlanItem.delete "a", PlanItem.delete "b"], none) := by decide

/-- The spec-modelled planner agrees with the source's
`TestMaxDeleteLogic` predicate: deletions are emitted (no error) exactly
when the test's `shouldDelete` is true. -/
theorem syncDeletePhase_agrees_with_test (maxDelete : Int)
    (destOnly : List String) :
    ((syncDeletePhase true maxDelete destOnly).2 = none) ↔
      shouldDeleteTest maxDelete destOnly.length = true := by
  simp only [syncDeletePhase, shouldDeleteTest]
  by_cases h : 0 ≤ maxDelete ∧ (destOnly.length : Int) > maxDelete
  · simp only [if_neg (by simp : ¬ (True = False)), if_pos h]
    simp only [Bool.or_eq_true, decide_eq_true_eq]
    constructor
    · intro hc
      exact absurd hc (by simp)
    · intro hc
      omega
  · simp only [if_neg (by simp : ¬ (True = False)), if_neg h]
    simp only [Bool.or_eq_true, decide_eq_true_eq]
    constructor
    · intro _
      omega
    · intro _
      rfl

/-- C8: for every object pair, the default size+mtime strategy decides:
source strictly newer → copy (`nil`); otherwise differing sizes → copy;
otherwise the `NewerAndSizesMatch` skip reason. -/
theorem sizeAndModification_decision (srcObj dstObj : Object) :
    (srcObj.modTime > dstObj.modTime →
      sizeAndModificationShouldSync srcObj dstObj = none) ∧
    (¬ srcObj.modTime > dstObj.modTime → srcObj.size ≠ dstObj.size →
      sizeAndModificationShouldSync srcObj dstObj = none) ∧
    (¬ srcObj.modTime > dstObj.modTime → srcObj.size = dstObj.size →
      sizeAndModificationShouldSync srcObj dstObj =
        some SyncError.objectIsNewerAndSizesMatch) := by
  refine ⟨fun h => ?_, fun h hs => ?_, fun h hs => ?_⟩
  · simp [sizeAndModificationShouldSync, h]
  · simp [sizeAndModificationShouldSync, h, hs]
  · simp [sizeAndModificationShouldSync, h, hs]

/-- Witness for C8 at concrete object pairs: newer source copies, older
same-size pair skips, older different-size pair copies. -/
theorem sizeAndModification_decision_witness :
    sizeAndModificationShouldSync ⟨"s3://b/k", true, 100, 10, "e1"⟩
      ⟨"s3://b/k", true, 100, 5, "e2"⟩ = none ∧
    sizeAndModificationShouldSync ⟨"s3://b/k", true, 100, 5, "e1"⟩
      ⟨"s3://b/k", true, 200, 10, "e2"⟩ = none ∧
    sizeAndModificationShouldSync ⟨"s3://b/k", true, 100, 5, "e1"⟩
      ⟨"s3://b/k", true, 100, 10, "e2"⟩ =
        some SyncError.objectIsNewerAndSizesMatch :=
  ⟨(sizeAndModification_decision _ _).1 (by decide),
   (sizeAndModification_decision _ _).2.1 (by decide) (by decide),
   (sizeAndModification_decision _ _).2.2 (by decide) (by decide)⟩

/-- C9: whenever either side's hash token contains the multipart separator,
the hash strategy decides copy (`nil`), whether or not the tokens are
equal. -/
theorem hashShouldSync_multipart_copies (env : Object → Option String)
    (srcObj dstObj : Object)
    (h : (isMultipartETag (getHash env srcObj) ||
          isMultipartETag (getHash env dstObj)) = true) :
    hashShouldSync env srcObj dstObj = none := by
  unfold hashShouldSync
  split
  · rfl
  · simp [h]

/-- Witness for C9: two identical multipart tokens on equal sizes still
yield copy. -/
theorem hashShouldSync_multipart_copies_witness :
    hashShouldSync (fun _ => none) ⟨"s3://b/k", true, 100, 0, "abc-5"⟩
      ⟨"s3://b/k2", true, 100, 0, "abc-5"⟩ = none :=
  hashShouldSync_multipart_copies (fun _ => none) _ _ (by decide)

/-- C3 counterexample: with equal sizes and both hash-token computations
failing (local objects, no stored ETag, open failure), both tokens are
empty, yet `ShouldSync` returns the `EtagsMatch` skip reason — not the
claimed `nil` (copy). -/
theorem hashShouldSync_both_empty_skips :
    getHash (fun _ => none) ⟨"/a", false, 5, 0, ""⟩ = "" ∧
    getHash (fun _ => none) ⟨"/b", false, 5, 0, ""⟩ = "" ∧
    hashShouldSync (fun _ => none) ⟨"/a", false, 5, 0, ""⟩ ⟨"/b", false, 5, 0, ""⟩ =
      some SyncError.objectEtagsMatch ∧
    hashShouldSync (fun _ => none) ⟨"/a", false, 5, 0, ""⟩ ⟨"/b", false, 5, 0, ""⟩ ≠
      none := by
  refine ⟨by decide, by decide, by decide, by decide⟩

/-- C3 amended: a failed hash-token computation yields the empty token,
and an empty token forces copy whenever the other side's token is
non-empty; when both sides yield empty tokens the pair is instead skipped
with `EtagsMatch`. -/
theorem hashStrategy_empty_token_behavior (env : Object → Option String)
    (obj srcObj dstObj : Object) :
    (obj.isRemoteURL = false → obj.etag = "" → env obj = none →
      getHash env obj = "") ∧
    (srcObj.size = dstObj.size → getHash env srcObj = "" →
      getHash env dstObj ≠ "" → hashShouldSync env srcObj dstObj = none) ∧
    (srcObj.size = dstObj.size → getHash env dstObj = "" →
      getHash env srcObj ≠ "" → hashShouldSync env srcObj dstObj = none) ∧
    (srcObj.size = dstObj.size → getHash env srcObj = "" →
      getHash env dstObj = "" →
      hashShouldSync env srcObj dstObj = some SyncError.objectEtagsMatch) := by
  refine ⟨fun hr he hv => ?_, fun hs hsrc hdst => ?_, fun hs hdst hsrc => ?_,
    fun hs hsrc hdst => ?_⟩
  · simp [getHash, hr, he, hv]
  · unfold hashShouldSync
    rw [if_neg (by simp [hs])]
    simp only [hsrc]
    by_cases hm : isMultipartETag (getHash env dstObj) = true
    · simp [hm]
    · simp only [Bool.not_eq_true] at hm
      simp [hm, isMultipartETag, strContains, charListContains, charListHasPre,
        Ne.symm hdst]
  · unfold hashShouldSync
    rw [if_neg (by simp [hs])]
    simp only [hdst]
    by_cases hm : isMultipartETag (getHash env srcObj) = true
    · simp [hm]
    · simp only [Bool.not_eq_true] at hm
      simp [hm, isMultipartETag, strContains, charListContains, charListHasPre,
        hsrc]
  · unfold hashShouldSync
    rw [if_neg (by simp [hs])]
    simp [hsrc, hdst, isMultipartETag, strContains, charListContains,
      charListHasPre]

/-- Witness for C3 amended: a failing local hash yields the empty token;
empty source token vs non-empty destination token copies; non-empty source
token vs empty destination token copies; empty-vs-empty skips. -/
theorem hashStrategy_empty_token_behavior_witness :
    getHash (fun _ => none) ⟨"/a", false, 5, 0, ""⟩ = "" ∧
    hashShouldSync (fun _ => none) ⟨"/a", false, 5, 0, ""⟩
      ⟨"s3://b/k", true, 5, 0, "abc"⟩ = none ∧
    hashShouldSync (fun _ => none) ⟨"s3://b/k", true, 5, 0, "abc"⟩
      ⟨"/a", false, 5, 0, ""⟩ = none ∧
    hashShouldSync (fun _ => none) ⟨"/a", false, 5, 0, ""⟩
      ⟨"/b", false, 5, 0, ""⟩ = some SyncError.objectEtagsMatch :=
  ⟨(hashStrategy_empty_token_behavior (fun _ => none) ⟨"/a", false, 5, 0, ""⟩
      ⟨"/a", false, 5, 0, ""⟩ ⟨"/b", false, 5, 0, ""⟩).1 rfl rfl rfl,
   (hashStrategy_empty_token_behavior (fun _ => none) ⟨"/a", false, 5, 0, ""⟩
      ⟨"/a", false, 5, 0, ""⟩ ⟨"s3://b/k", true, 5, 0, "abc"⟩).2.1
      (by decide) (by decide) (by decide),
   (hashStrategy_empty_token_behavior (fun _ => none) ⟨"/a", false, 5, 0, ""⟩
      ⟨"s3://b/k", true, 5, 0, "abc"⟩ ⟨"/a", false, 5, 0, ""⟩).2.2.1
      (by decide) (by decide) (by decide),
   (hashStrategy_empty_token_behavior (fun _ => none) ⟨"/a", false, 5, 0, ""⟩
      ⟨"/a", false, 5, 0, ""⟩ ⟨"/b", false, 5, 0, ""⟩).2.2.2
      (by decide) (by decide) (by decide)⟩

/-- C2: with delete enabled, a destination-only count above a non-negative
limit emits nothing and surfaces the single refusal message; within the
limit, or with a negative (unlimited) limit, one `Delete` per entry is
emitted and no error. -/
theorem syncDelete_maxDelete_enforcement (destOnly : List String) (m : Int) :
    (0 ≤ m → (destOnly.length : Int) > m →
      syncDeletePhase true m destOnly =
        ([], some (maxDeleteErrMsg destOnly.length m))) ∧
    ((m < 0 ∨ (destOnly.length : Int) ≤ m) →
      syncDeletePhase true m destOnly =
        (destOnly.map PlanItem.delete, none)) := by
  refine ⟨fun h1 h2 => ?_, fun h => ?_⟩
  · simp [syncDeletePhase, h1, h2]
  · have hnot : ¬ (0 ≤ m ∧ (destOnly.length : Int) > m) := by
      rcases h with h | h <;> omega
    simp [syncDeletePhase, hnot]

/-- Witness for C2: five destination-only entries against a limit of 3 are
refused with the literal message; a negative limit deletes them all. -/
theorem syncDelete_maxDelete_enforcement_witness :
    syncDeletePhase true 3 ["a", "b", "c", "d", "e"] =
      ([], some "refusing to delete 5 files; more than max-delete limit of 3") ∧
    syncDeletePhase true (-1) ["a", "b"] =
      ([PlanItem.delete "a", PlanItem.delete "b"], none) :=
  ⟨((syncDelete_maxDelete_enforcement ["a", "b", "c", "d", "e"] 3).1
      (by decide) (by decide)).trans (by decide),
   (syncDelete_maxDelete_enforcement ["a", "b"] (-1)).2 (Or.inl (by decide))⟩

/-- C4 counterexample: at source size 1 the guard requires
`int64(1 × 1.2) = 1` byte, so a free count of 1 passes, while the claimed
ceiling `⌈1 × 1.2⌉ = 2` would have demanded an insufficient-space error. -/
theorem validateDiskSpace_not_ceiling :
    validateDiskSpaceCheck 1 1 = none ∧ (1 : Int) < requiredSpaceSpec 1 := by
  constructor
  · norm_num [validateDiskSpaceCheck, requiredSpace, goInt64OfRat]
  · have h2 : requiredSpaceSpec 1 = 2 := by
      rw [requiredSpaceSpec, Int.ceil_eq_iff] <;> norm_num
    rw [h2]
    norm_num

/-- C4 amended: the guard's required byte count is `size × 1.2` truncated
toward zero (the floor, for non-negative sizes), not the ceiling, and the
insufficient-space error is returned exactly when the free count is
strictly below that truncated requirement. -/
theorem validateDiskSpace_truncated_headroom (size free : Int)
    (hs : 0 ≤ size) :
    requiredSpace size = ⌊(size : ℚ) * (6/5)⌋ ∧
    (validateDiskSpaceCheck size free = none ↔ requiredSpace size ≤ free) ∧
    (free < requiredSpace size →
      validateDiskSpaceCheck size free =
        some (DiskError.insufficientSpace (requiredSpace size) free)) := by
  have hq : (0 : ℚ) ≤ (size : ℚ) * (6/5) := by
    have : (0 : ℚ) ≤ (size : ℚ) := by exact_mod_cast hs
    nlinarith
  refine ⟨goInt64OfRat_of_nonneg hq, ⟨fun hnone => ?_, fun hle => ?_⟩, fun h => ?_⟩
  · by_contra hlt
    rw [validateDiskSpaceCheck, if_pos (by omega)] at hnone
    exact Option.noConfusion hnone
  · rw [validateDiskSpaceCheck, if_neg (by omega)]
  · simp [validateDiskSpaceCheck, h]

/-- Witness for C4 amended at size 10, free 12: required is exactly 12 and
the check passes. -/
theorem validateDiskSpace_truncated_headroom_witness :
    requiredSpace 10 = ⌊(10 : ℚ) * (6/5)⌋ ∧
    (validateDiskSpaceCheck 10 12 = none ↔ requiredSpace 10 ≤ 12) ∧
    (12 < requiredSpace 10 →
      validateDiskSpaceCheck 10 12 =
        some (DiskError.insufficientSpace (requiredSpace 10) 12)) :=
  validateDiskSpace_truncated_headroom 10 12 (by norm_num)

/-- C5: on Linux (a platform with a filesystem-statistics call available)
the guard's result is the hard-coded 1 GiB constant from the writeability
probe, for every value the statfs oracle would have reported — the real
free-byte count is never consulted. -/
theorem getAvailableDiskSpace_linux_ignores_statfs (statfsValue : Int)
    (w : Option Int) :
    getAvailableDiskSpace GOOS.linux ⟨some statfsValue, w, true⟩ =
      Except.ok (1024 * 1024 * 1024) := rfl

/-- C6: the whitespace-free form `"100MB/s"` parses to a positive rate and
validates, and the validator's own format pattern accepts the internal
whitespace of `"100 MB/s"`, yet `parseBandwidthLimit` rejects that string
(the unit is stripped but the numeric part retains the trailing space,
which `strconv.ParseFloat` refuses), so validation fails too. -/
theorem parseBandwidthLimit_rejects_internal_whitespace :
    parseBandwidthLimit "100MB/s" = Except.ok 104857600 ∧
    bandwidthFormatMatch "100 MB/S" = true ∧
    parseBandwidthLimit "100 MB/s" =
      Except.error BandwidthParseError.invalidNumber ∧
    validateBandwidthFormat "100 MB/s" =
      some "failed to parse bandwidth limit" ∧
    validateBandwidthFormat "100MB/s" = none := by
  have hok : parseBandwidthLimit "100MB/s" = Except.ok 104857600 := by
    have ht : strToUpper (strTrim "100MB/s") = "100MB/S" := by decide
    have hu : resolveBandwidthUnit "100MB/S" = Except.ok 1048576 := by rfl
    have hp : goParseFloatRaw ("100MB/S".dropRight 4) =
        some ⟨false, 100, 0, 0, false, 0⟩ := by decide
    rw [parseBandwidthLimit, ht, hu, hp]
    norm_num [ParsedFloat.value]
  have herr : parseBandwidthLimit "100 MB/s" =
      Except.error BandwidthParseError.invalidNumber := by
    have ht : strToUpper (strTrim "100 MB/s") = "100 MB/S" := by decide
    have hu : resolveBandwidthUnit "100 MB/S" = Except.ok 1048576 := by rfl
    have hp : goParseFloatRaw ("100 MB/S".dropRight 4) = none := by decide
    rw [parseBandwidthLimit, ht, hu, hp]
  refine ⟨hok, by decide, herr, ?_, ?_⟩
  · have ht : strToUpper (strTrim "100 MB/s") = "100 MB/S" := by decide
    rw [validateBandwidthFormat, if_neg (by decide), ht,
      if_neg (by simp [show bandwidthFormatMatch "100 MB/S" = true from by decide]),
      herr]
  · have ht : strToUpper (strTrim "100MB/s") = "100MB/S" := by decide
    rw [validateBandwidthFormat, if_neg (by decide), ht,
      if_neg (by simp [show bandwidthFormatMatch "100MB/S" = true from by decide]),
      hok]
    norm_num

/-- C10: a limiter built from the empty string is disabled with no error;
a disabled limiter's `Wait` is nil for every oracle behaviour, context
(cancelled or not) and byte count; and the disabled read/write wrappers
return the underlying stream's result unchanged. -/
theorem bandwidthLimiter_disabled_passthrough :
    newBandwidthLimiter "" = Except.ok ⟨false, 0, 0⟩ ∧
    (∀ (waitN : WaitOracle) (ctx : Ctx) (n : Nat),
      bandwidthWait waitN ⟨false, 0, 0⟩ ctx n = none) ∧
    (∀ (waitN : WaitOracle) (ctx : Ctx) (u : Nat × Option String),
      limitedRead waitN ⟨false, 0, 0⟩ ctx u = u) ∧
    (∀ (waitN : WaitOracle) (ctx : Ctx) (p : Nat)
      (u : Nat → Nat × Option String),
      limitedWrite waitN ⟨false, 0, 0⟩ ctx p u = u p) := by
  refine ⟨rfl, fun waitN ctx n => rfl, fun waitN ctx u => ?_, fun waitN ctx p u => ?_⟩
  · simp [limitedRead]
  · simp [limitedWrite]

/-- One retryable, uncancelled failure advances the retry loop to the next
attempt. -/
theorem withRetryAux_step (op : Nat → Option String) (cancel : Nat → Bool)
    (maxRetries attempt left' : Nat) (e : String)
    (hop : op attempt = some e) (hr : isRetryableError (some e) = true)
    (hc : cancel attempt = false) :
    withRetryAux op cancel maxRetries attempt (left' + 1) =
      withRetryAux op cancel maxRetries (attempt + 1) left' := by
  rw [withRetryAux, hop]
  simp [hr, hc]

/-- If every attempt before `i` fails retryably without cancellation, the
whole run equals the loop restarted at attempt `i`. -/
theorem withRetry_reaches (op : Nat → Option String) (cancel : Nat → Bool)
    (maxRetries : Nat) :
    ∀ i, i ≤ maxRetries →
    (∀ j, j < i → ∃ ej, op j = some ej ∧ isRetryableError (some ej) = true ∧
      cancel j = false) →
    withRetry op cancel maxRetries =
      withRetryAux op cancel maxRetries i (maxRetries - i) := by
  intro i
  induction i with
  | zero => intro _ _; rfl
  | succ k ih =>
    intro hk hgood
    obtain ⟨e, hop, hr, hc⟩ := hgood k (Nat.lt_succ_self k)
    have hstep : maxRetries - k = (maxRetries - (k + 1)) + 1 := by omega
    rw [ih (by omega) (fun j hj => hgood j (Nat.lt_succ_of_lt hj)), hstep,
      withRetryAux_step op cancel maxRetries k _ e hop hr hc]

/-- C1 counterexample: retryable failures up to the final attempt followed
by a non-retryable failure on the final attempt produce the wrapping
`"operation failed after 4 retries"` envelope, not the error as-is. -/
theorem withRetry_final_nonretryable_wrapped :
    isRetryableError (some "file not found") = false ∧
    (fun n => if n < 3 then some "connection timeout" else
      some "file not found") 3 = some "file not found" ∧
    withRetry (fun n => if n < 3 then some "connection timeout" else
      some "file not found") (fun _ => false) 3 =
        RetryResult.exhausted 4 "file not found" ∧
    withRetry (fun n => if n < 3 then some "connection timeout" else
      some "file not found") (fun _ => false) 3 ≠
        RetryResult.errAsIs "file not found" := by
  refine ⟨by decide, by decide, by decide, by decide⟩

/-- C1 amended: a non-retryable failure at an attempt index strictly before
the final one is returned as-is, at whatever index it occurs; a failure on
the final attempt — retryable or not — is wrapped in the
`operation failed after N retries` envelope with `N = MaxRetries + 1`. -/
theorem withRetry_nonretryable_before_final_asIs (op : Nat → Option String)
    (cancel : Nat → Bool) (maxRetries i : Nat) (e : String) :
    (i < maxRetries →
      (∀ j, j < i → ∃ ej, op j = some ej ∧ isRetryableError (some ej) = true ∧
        cancel j = false) →
      op i = some e → isRetryableError (some e) = false →
      withRetry op cancel maxRetries = RetryResult.errAsIs e) ∧
    ((∀ j, j < maxRetries → ∃ ej, op j = some ej ∧
        isRetryableError (some ej) = true ∧ cancel j = false) →
      op maxRetries = some e →
      withRetry op cancel maxRetries =
        RetryResult.exhausted (maxRetries + 1) e) := by
  constructor
  · intro hi hgood hop hne
    rw [withRetry_reaches op cancel maxRetries i (by omega) hgood,
      show maxRetries - i = (maxRetries - (i + 1)) + 1 by omega,
      withRetryAux, hop]
    simp [hne]
  · intro hgood hop
    rw [withRetry_reaches op cancel maxRetries maxRetries le_rfl hgood,
      Nat.sub_self, withRetryAux, hop]

/-- Witness for C1 amended: a non-retryable error at attempt 1 of 4 is
returned as-is; a retryable error still failing on the final attempt of a
2-attempt run is wrapped. -/
theorem withRetry_nonretryable_before_final_asIs_witness :
    withRetry (fun n => if n = 0 then some "connection reset" else
      some "access denied") (fun _ => false) 3 =
        RetryResult.errAsIs "access denied" ∧
    withRetry (fun _ => some "connection timeout") (fun _ => false) 1 =
      RetryResult.exhausted 2 "connection timeout" := by
  constructor
  · refine (withRetry_nonretryable_before_final_asIs
      (fun n => if n = 0 then some "connection reset" else some "access denied")
      (fun _ => false) 3 1 "access denied").1 (by decide) ?_ (by decide) (by decide)
    intro j hj
    interval_cases j
    exact ⟨"connection reset", by decide, by decide, rfl⟩
  · refine (withRetry_nonretryable_before_final_asIs
      (fun _ => some "connection timeout") (fun _ => false) 1 0
      "connection timeout").2 ?_ (by decide)
    intro j hj
    interval_cases j
    exact ⟨"connection timeout", by decide, by decide, rfl⟩

/-- With a zero nominal delay the jitter branch is skipped and the result
is zero (for a non-negative max). -/
theorem calculateDelayPre_zero_nominal (rc : RetryConfig) (i : Nat) (r : ℚ)
    (hd : nominalDelay rc i = 0) (hm : 0 ≤ rc.maxDelay) :
    calculateDelayPre rc (i : Int) r = 0 := by
  have hneg : ¬ ((i : Int) < 0) := by omega
  rw [calculateDelayPre, if_neg hneg]
  simp only [Int.toNat_natCast]
  rw [show rc.baseDelay * rc.backoffExponent ^ i = nominalDelay rc i from rfl, hd]
  rw [jitterStep, if_neg (by simp), snapNegative, if_neg (by norm_num),
    clampMax, if_neg (not_lt.mpr hm)]

/-- With jitter on and a positive nominal delay, the computed delay before
truncation is exactly `min (nominal · (3/4 + r/2)) max`. -/
theorem calculateDelayPre_jitter_eq (rc : RetryConfig) (i : Nat) (r : ℚ)
    (hj : rc.jitter = true) (hd : 0 < nominalDelay rc i) (hr0 : 0 ≤ r) :
    calculateDelayPre rc (i : Int) r =
      min (nominalDelay rc i * (3/4 + r/2)) rc.maxDelay := by
  have hneg : ¬ ((i : Int) < 0) := by omega
  rw [calculateDelayPre, if_neg hneg]
  simp only [Int.toNat_natCast]
  rw [show rc.baseDelay * rc.backoffExponent ^ i = nominalDelay rc i from rfl]
  set n := nominalDelay rc i with hn
  rw [jitterStep, if_pos ⟨hj, hd⟩,
    show n + (r - 1/2) * 2 * (n * (1/4)) = n * (3/4 + r/2) by ring]
  have hpos : 0 < n * (3/4 + r/2) := by nlinarith
  rw [snapNegative, if_neg (not_lt.mpr hpos.le)]
  rw [clampMax]
  by_cases hc : rc.maxDelay < n * (3/4 + r/2)
  · rw [if_pos hc, min_eq_right hc.le]
  · rw [if_neg hc, min_eq_left (not_lt.mp hc)]

/-- C7 counterexample: with the default-style config (base 1, exponent 2,
max 30, jitter on) at attempt 10 and jitter draw 1/2 the delay is clamped
to the max, 30, which is strictly below the claimed lower bound
`0.75 · nominal(10) = 768`. -/
theorem calculateDelay_clamp_breaks_lower_bound :
    calculateDelay ⟨3, 1, 30, 2, true⟩ ((10 : Nat) : Int) (1/2) = 30 ∧
    ¬ ((3/4) * nominalDelay ⟨3, 1, 30, 2, true⟩ 10 ≤
        (calculateDelay ⟨3, 1, 30, 2, true⟩ ((10 : Nat) : Int) (1/2) : ℚ)) := by
  have hnom : nominalDelay ⟨3, 1, 30, 2, true⟩ 10 = 1024 := by
    norm_num [nominalDelay]
  have h1 : calculateDelay ⟨3, 1, 30, 2, true⟩ ((10 : Nat) : Int) (1/2) = 30 := by
    rw [calculateDelay,
      calculateDelayPre_jitter_eq ⟨3, 1, 30, 2, true⟩ 10 (1/2) rfl
        (by rw [hnom]; norm_num) (by norm_num), hnom]
    norm_num [goInt64OfRat]
  refine ⟨h1, ?_⟩
  rw [h1, hnom]
  norm_num

/-- C7 amended: with jitter enabled, non-negative `base ≤ max`, exponent at
least 1, and any jitter draw `r ∈ [0,1)`, every attempt's delay lies
between `⌊min (0.75 · nominal i) max⌋` and `min (1.25 · nominal i) max` —
the claimed lower bound `0.75 · nominal i` itself holds only until the
clamp to `max` binds, and the returned `time.Duration` is the truncation
of the clamped value. -/
theorem calculateDelay_jitter_clamped_bounds (rc : RetryConfig) (i : Nat)
    (r : ℚ) (hj : rc.jitter = true) (hb0 : 0 ≤ rc.baseDelay)
    (hbm : rc.baseDelay ≤ rc.maxDelay) (hexp : 1 ≤ rc.backoffExponent)
    (hr0 : 0 ≤ r) (hr1 : r < 1) :
    ⌊min ((3/4) * nominalDelay rc i) rc.maxDelay⌋ ≤
      calculateDelay rc (i : Int) r ∧
    (calculateDelay rc (i : Int) r : ℚ) ≤
      min ((5/4) * nominalDelay rc i) rc.maxDelay := by
  have hm0 : 0 ≤ rc.maxDelay := le_trans hb0 hbm
  have hn0 : 0 ≤ nominalDelay rc i :=
    mul_nonneg hb0 (pow_nonneg (by linarith) i)
  rcases eq_or_lt_of_le hn0 with hz | hpos
  · have hzero := calculateDelayPre_zero_nominal rc i r hz.symm hm0
    have hlo : min ((3/4) * nominalDelay rc i) rc.maxDelay = 0 := by
      rw [← hz]
      simpa using min_eq_left hm0
    have hhi : min ((5/4) * nominalDelay rc i) rc.maxDelay = 0 := by
      rw [← hz]
      simpa using min_eq_left hm0
    rw [calculateDelay, hzero, hlo, hhi]
    norm_num [goInt64OfRat]
  · have heq := calculateDelayPre_jitter_eq rc i r hj hpos hr0
    rw [calculateDelay, heq]
    have hd1lo : (3/4) * nominalDelay rc i ≤ nominalDelay rc i * (3/4 + r/2) := by
      nlinarith
    have hd1hi : nominalDelay rc i * (3/4 + r/2) ≤ (5/4) * nominalDelay rc i := by
      nlinarith
    have hminpos : 0 ≤ min (nominalDelay rc i * (3/4 + r/2)) rc.maxDelay :=
      le_min (by nlinarith) hm0
    rw [goInt64OfRat_of_nonneg hminpos]
    exact ⟨Int.floor_mono (min_le_min hd1lo le_rfl),
      le_trans (Int.floor_le _) (min_le_min hd1hi le_rfl)⟩

/-- Witness for C7 amended at base 1, max 30, exponent 2, attempt 2, jitter
draw 1/2. -/
theorem calculateDelay_jitter_clamped_bounds_witness :
    ⌊min ((3/4) * nominalDelay ⟨3, 1, 30, 2, true⟩ 2)
        (RetryConfig.maxDelay ⟨3, 1, 30, 2, true⟩)⌋ ≤
      calculateDelay ⟨3, 1, 30, 2, true⟩ ((2 : Nat) : Int) (1/2) ∧
    (calculateDelay ⟨3, 1, 30, 2, true⟩ ((2 : Nat) : Int) (1/2) : ℚ) ≤
      min ((5/4) * nominalDelay ⟨3, 1, 30, 2, true⟩ 2)
        (RetryConfig.maxDelay ⟨3, 1, 30, 2, true⟩) :=
  calculateDelay_jitter_clamped_bounds ⟨3, 1, 30, 2, true⟩ 2 (1/2) rfl
    (by norm_num) (by norm_num) (by norm_num) (by norm_num) (by norm_num)

end S5cmd
